import Mathlib

/-!
Verification development for the wadmol-bot chat-parsing and tracking core.
The definitions below are shallow embeddings of the JavaScript sources:
src/minecraft/chatParser.js, src/services/boosterTracker.js,
src/minecraft/commandBridge.js and src/utils/playerDataStore.js.
Times are modelled as Int milliseconds (JS Date.now values), multipliers as
rationals (the JS doubles involved are only compared for equality and
truthiness, never combined arithmetically), and the JS Map objects as
association lists or functions into Option.
-/

namespace Wadmol

/-! ### A small backtracking regex engine

JS RegExp.match is embedded by translating each pattern literally into a
list of atoms and running a backtracking matcher with ordered alternatives,
greedy or lazy one-or-more repetition over character classes, bounded
repetition, optional groups and numbered capture groups.  The matcher is
fueled; the fuel only bounds the nesting depth of the search, which for the
fixed patterns of the program is tiny. -/

/-- Regex atoms: literal text, a single class character, one-or-more of a
class (greedy or lazy), bounded greedy repetition of a class, an optional
non-capturing group, ordered alternation, and a numbered capture group. -/
inductive Pat where
  | lit : List Char → Pat
  | cls : (Char → Bool) → Pat
  | plus : Bool → (Char → Bool) → Pat
  | rep : (Char → Bool) → Nat → Nat → Pat
  | opt : List Pat → Pat
  | alt : List (List Pat) → Pat
  | cap : Nat → List Pat → Pat

/-- Character comparison, optionally case-insensitive (for /i patterns). -/
def charEqCI (ci : Bool) (a b : Char) : Bool :=
  if ci then a.toLower == b.toLower else a == b

/-- Does the literal match a prefix of the input? -/
def litTake (ci : Bool) : List Char → List Char → Bool
  | [], _ => true
  | _ :: _, [] => false
  | a :: as, b :: bs => charEqCI ci a b && litTake ci as bs

/-- Length of the maximal prefix run satisfying the class. -/
def clsRun (p : Char → Bool) (s : List Char) : Nat :=
  (s.takeWhile p).length

/-- First success over a list of candidates. -/
def tryList (f : α → Option β) : List α → Option β
  | [] => none
  | a :: as =>
    match f a with
    | some r => some r
    | none => tryList f as

/-- Captures recorded so far: most recent first. -/
abbrev Caps := List (Nat × String)

/-- Backtracking matcher in continuation-passing style.  The continuation
receives the remaining input and the captures. -/
def matchSeq : Nat → Bool → List Pat → List Char → Caps →
    (List Char → Caps → Option Caps) → Option Caps
  | 0, _, _, _, _, _ => none
  | _ + 1, _, [], s, caps, k => k s caps
  | fuel + 1, ci, Pat.lit l :: ps, s, caps, k =>
    if litTake ci l s then matchSeq fuel ci ps (s.drop l.length) caps k else none
  | fuel + 1, ci, Pat.cls p :: ps, s, caps, k =>
    match s with
    | [] => none
    | c :: rest => if p c then matchSeq fuel ci ps rest caps k else none
  | fuel + 1, ci, Pat.plus lzy p :: ps, s, caps, k =>
    let n := clsRun p s
    let lens := if lzy then (List.range n).map (· + 1)
                else ((List.range n).map (· + 1)).reverse
    tryList (fun i => matchSeq fuel ci ps (s.drop i) caps k) lens
  | fuel + 1, ci, Pat.rep p lo hi :: ps, s, caps, k =>
    let n := min (clsRun p s) hi
    if n < lo then none
    else
      let lens := ((List.range (n + 1 - lo)).map (· + lo)).reverse
      tryList (fun i => matchSeq fuel ci ps (s.drop i) caps k) lens
  | fuel + 1, ci, Pat.opt inner :: ps, s, caps, k =>
    match matchSeq fuel ci (inner ++ ps) s caps k with
    | some r => some r
    | none => matchSeq fuel ci ps s caps k
  | fuel + 1, ci, Pat.alt alts :: ps, s, caps, k =>
    tryList (fun a => matchSeq fuel ci (a ++ ps) s caps k) alts
  | fuel + 1, ci, Pat.cap i inner :: ps, s, caps, k =>
    matchSeq fuel ci inner s caps (fun s2 caps2 =>
      matchSeq fuel ci ps s2 ((i, String.mk (s.take (s.length - s2.length))) :: caps2) k)

/-- Fuel bound: generous for the fixed small patterns of the program. -/
def FUEL : Nat := 200

/-- Unanchored leftmost search, like JS String.match without anchors. -/
def searchFrom (ci : Bool) (ps : List Pat) : List Char → Option Caps
  | [] => matchSeq FUEL ci ps [] [] (fun _ caps => some caps)
  | c :: rest =>
    match matchSeq FUEL ci ps (c :: rest) [] (fun _ caps => some caps) with
    | some caps => some caps
    | none => searchFrom ci ps rest

/-- Run an unanchored pattern on a string. -/
def searchPat (ci : Bool) (ps : List Pat) (str : String) : Option Caps :=
  searchFrom ci ps str.data

/-- Run a pattern anchored at both ends, for a regex of the shape caret ... dollar. -/
def matchAnchored (ci : Bool) (ps : List Pat) (str : String) : Option Caps :=
  matchSeq FUEL ci ps str.data [] (fun rest caps => if rest.isEmpty then some caps else none)

/-- Look up a numbered capture group. -/
def getCap (caps : Caps) (i : Nat) : Option String :=
  (caps.find? (fun e => e.1 == i)).map (fun e => e.2)

/-! ### Character classes used by the patterns -/

/-- JS class backslash-w. -/
def isW (c : Char) : Bool := c.isAlphanum || c == '_'

/-- JS class backslash-d. -/
def isD (c : Char) : Bool := c.isDigit

/-- JS class of uppercase A to Z. -/
def isUpperAZ (c : Char) : Bool := 'A' ≤ c && c ≤ 'Z'

/-- JS negated class excluding the exclamation mark. -/
def notBang (c : Char) : Bool := c != '!'

/-- JS dot: any character other than a line terminator. -/
def dotc (c : Char) : Bool := c != '\n'

/-- JS class of digits and the dot. -/
def digitOrDot (c : Char) : Bool := c.isDigit || c == '.'

/-- JS class of word characters and the space. -/
def wOrSpace (c : Char) : Bool := isW c || c == ' '

/-- Shorthand for a literal atom. -/
def l (s : String) : Pat := Pat.lit s.data

/-! ### The chat patterns of chatParser.js, translated atom by atom.
Each definition carries the source regex in its doc comment. -/

/-- Source regex (flag i): WOAH! backslash-bracket d+ bracket (w+) (?:just )?activated a (w+) booster! GG! -/
def boosterChatPat : List Pat :=
  [l "WOAH! [", Pat.plus false isD, l "] ",
   Pat.cap 1 [Pat.plus false isW], l " ",
   Pat.opt [l "just "],
   l "activated a ", Pat.cap 2 [Pat.plus false isW],
   l " booster! GG!"]

/-- Source regex: a group of d+ with an optional fractional part, then the letter x. -/
def boosterTitlePat : List Pat :=
  [Pat.cap 1 [Pat.plus false isD, Pat.opt [l ".", Pat.plus false isD], l "x"]]

/-- Source regex (flag i): (w+) apostrophe-s, an optional group of digits-or-dots and x,
(w+), then boost or booster or boost, then expired!. -/
def boosterExpirePat : List Pat :=
  [Pat.cap 1 [Pat.plus false isW], l "\x27s ",
   Pat.opt [Pat.cap 2 [Pat.plus false digitOrDot], l "x "],
   Pat.cap 3 [Pat.plus false isW], l " ",
   Pat.alt [[l "boost", Pat.opt [l "er"]], [l "boost"]],
   l " expired!"]

/-- Source regex: MAJOR EVENT! then a lazy non-bang group, starting in (d+) minutes. -/
def majorStartingPat : List Pat :=
  [l "MAJOR EVENT! ", Pat.cap 1 [Pat.plus true notBang],
   l " starting in ", Pat.cap 2 [Pat.plus false isD], l " minutes"]

/-- Source regex: MAJOR EVENT! then a lazy non-bang group, starting now. -/
def majorStartingNowPat : List Pat :=
  [l "MAJOR EVENT! ", Pat.cap 1 [Pat.plus true notBang], l " starting now"]

/-- Source regex: PIT EVENT ENDED: then a lazy non-bang group, then a bang. -/
def majorEndedPat : List Pat :=
  [l "PIT EVENT ENDED: ", Pat.cap 1 [Pat.plus true notBang], l "!"]

/-- Source regex: MINOR EVENT! HARVEST SEASON! -/
def harvestStartPat : List Pat := [l "MINOR EVENT! HARVEST SEASON!"]

/-- Source regex: MINOR EVENT! HARVEST SEASON ended -/
def harvestEndPat : List Pat := [l "MINOR EVENT! HARVEST SEASON ended"]

/-- Source regex: MINOR EVENT! AUCTION! Check your chat! -/
def auctionStartPat : List Pat := [l "MINOR EVENT! AUCTION! Check your chat!"]

/-- Source regex: MINOR EVENT! AUCTION ending now -/
def auctionEndPat : List Pat := [l "MINOR EVENT! AUCTION ending now"]

/-- Source regex: PRESTIGE! (w+) unlocked prestige, a group of word-or-space, then comma gg!. -/
def prestigePat : List Pat :=
  [l "PRESTIGE! ", Pat.cap 1 [Pat.plus false isW],
   l " unlocked prestige ", Pat.cap 2 [Pat.plus false wOrSpace], l ", gg!"]

/-- Source regex: MOVING! Sending you to (w+). -/
def lobbyPat : List Pat :=
  [l "MOVING! Sending you to ", Pat.cap 1 [Pat.plus false isW]]

/-- Source regex: EVENTS! Next Major Event: lazy non-bang group, in, then d+ m d+ s or d+ s. -/
def eventsMajorPat : List Pat :=
  [l "EVENTS! Next Major Event: ", Pat.cap 1 [Pat.plus true notBang], l " in ",
   Pat.cap 2 [Pat.alt [[Pat.plus false isD, l "m", Pat.plus false isD, l "s"],
                       [Pat.plus false isD, l "s"]]]]

/-- Source regex: EVENTS! Next Minor Event: lazy non-bang group, in, then d+ m d+ s or d+ s. -/
def eventsMinorPat : List Pat :=
  [l "EVENTS! Next Minor Event: ", Pat.cap 1 [Pat.plus true notBang], l " in ",
   Pat.cap 2 [Pat.alt [[Pat.plus false isD, l "m", Pat.plus false isD, l "s"],
                       [Pat.plus false isD, l "s"]]]]

/-- Source regex: (w+) arrow you colon, then exactly six digits. -/
def verifyMessagePat : List Pat :=
  [Pat.cap 1 [Pat.plus false isW], l " -> you: ", Pat.cap 2 [Pat.rep isD 6 6]]

/-- Source regex: Guild, angle, bracketed (w+), (w+) colon, then the rest. -/
def guildChatPat : List Pat :=
  [l "Guild > [", Pat.cap 1 [Pat.plus false isW], l "] ",
   Pat.cap 2 [Pat.plus false isW], l ": ", Pat.cap 3 [Pat.plus false dotc]]

/-- Source regex: the GKILLS tag, bracketed (d+), (w+), Killed, bracketed (d+), (w+). -/
def guildKillPat : List Pat :=
  [l "[GKILLS] [", Pat.cap 1 [Pat.plus false isD], l "] ",
   Pat.cap 2 [Pat.plus false isW], l " Killed [",
   Pat.cap 3 [Pat.plus false isD], l "] ", Pat.cap 4 [Pat.plus false isW]]

/-- Source regex (anchored at both ends): bracketed uppercase run dash digits,
an optional bracketed one-to-four uppercase tag, an optional bracketed VIP or
MVP with optional plus sign, (w+) colon, then the rest. -/
def lobbyChatPat : List Pat :=
  [l "[", Pat.cap 1 [Pat.plus false isUpperAZ], l "-",
   Pat.cap 2 [Pat.plus false isD], l "] ",
   Pat.opt [l "[", Pat.cap 3 [Pat.rep isUpperAZ 1 4], l "]"], l " ",
   Pat.opt [l "[", Pat.cap 4 [Pat.alt [[l "VIP"], [l "MVP", Pat.opt [l "+"]]]], l "]"], l " ",
   Pat.cap 5 [Pat.plus false isW], l ": ", Pat.cap 6 [Pat.plus false dotc]]

/-! ### Per-pattern match helpers, returning the captures the handlers read -/

/-- Run an unanchored pattern and read capture one. -/
def run1 (ci : Bool) (ps : List Pat) (m : String) : Option String :=
  (searchPat ci ps m).bind (fun caps => getCap caps 1)

/-- Run an unanchored pattern and read captures one and two. -/
def run2 (ci : Bool) (ps : List Pat) (m : String) : Option (String × String) :=
  (searchPat ci ps m).bind (fun caps =>
    (getCap caps 1).bind (fun a => (getCap caps 2).map (fun b => (a, b))))

/-- Match of the booster activation line, yielding player and type. -/
def matchBoosterChat (m : String) : Option (String × String) := run2 true boosterChatPat m

/-- Match of a title line, yielding the multiplier text, x included. -/
def matchBoosterTitle (m : String) : Option String := run1 false boosterTitlePat m

/-- Match of the booster expiry line, yielding player, optional multiplier and type. -/
def matchBoosterExpire (m : String) : Option (String × Option String × String) :=
  (searchPat true boosterExpirePat m).bind (fun caps =>
    (getCap caps 1).bind (fun p =>
      (getCap caps 3).map (fun t => (p, getCap caps 2, t))))

/-- Match of a major event announcement, yielding name and lead minutes. -/
def matchMajorStarting (m : String) : Option (String × String) := run2 false majorStartingPat m

/-- Match of a major event starting now, yielding the name. -/
def matchMajorStartingNow (m : String) : Option String := run1 false majorStartingNowPat m

/-- Match of a pit event ended line, yielding the name. -/
def matchMajorEnded (m : String) : Option String := run1 false majorEndedPat m

/-- Match of the harvest season start line. -/
def matchHarvestStart (m : String) : Bool := (searchPat false harvestStartPat m).isSome

/-- Match of the harvest season end line. -/
def matchHarvestEnd (m : String) : Bool := (searchPat false harvestEndPat m).isSome

/-- Match of the auction start line. -/
def matchAuctionStart (m : String) : Bool := (searchPat false auctionStartPat m).isSome

/-- Match of the auction end line. -/
def matchAuctionEnd (m : String) : Bool := (searchPat false auctionEndPat m).isSome

/-- Match of the prestige line, yielding player and prestige level. -/
def matchPrestige (m : String) : Option (String × String) := run2 false prestigePat m

/-- Match of the lobby move line, yielding the lobby name. -/
def matchLobby (m : String) : Option String := run1 false lobbyPat m

/-- Match of the events command reply for the major slot, yielding name and time text. -/
def matchEventsMajor (m : String) : Option (String × String) := run2 false eventsMajorPat m

/-- Match of the events command reply for the minor slot, yielding name and time text. -/
def matchEventsMinor (m : String) : Option (String × String) := run2 false eventsMinorPat m

/-- Match of the verification whisper, yielding player name and the six-digit code. -/
def matchVerifyMessage (m : String) : Option (String × String) := run2 false verifyMessagePat m

/-- Match of a guild chat line. -/
def matchGuildChat (m : String) : Bool := (searchPat false guildChatPat m).isSome

/-- Match of a guild kill line. -/
def matchGuildKill (m : String) : Bool := (searchPat false guildKillPat m).isSome

/-- Match of a lobby-scoped chat line, anchored at both ends. -/
def matchLobbyChat (m : String) : Bool := (matchAnchored false lobbyChatPat m).isSome

/-! ### Numeric parsing helpers mirroring parseFloat, parseInt and parseTimeToMs -/

/-- Value of a run of decimal digits. -/
def digitsToNat (ds : List Char) : Nat :=
  ds.foldl (fun acc c => acc * 10 + (c.toNat - '0'.toNat)) 0

/-- JS parseFloat restricted to the shapes produced by the title capture:
reads the leading digit run and an optional fractional part, stopping at the
first other character, such as the trailing x. -/
def parseFloatLead (s : String) : ℚ :=
  let ds := s.data.takeWhile Char.isDigit
  let rest := s.data.drop ds.length
  match rest with
  | '.' :: r2 =>
    let fs := r2.takeWhile Char.isDigit
    mkRat (digitsToNat ds * 10 ^ fs.length + digitsToNat fs) (10 ^ fs.length)
  | _ => mkRat (digitsToNat ds) 1

/-- JS parseInt restricted to the digit-only capture groups it is applied to. -/
def parseIntLead (s : String) : Nat := digitsToNat (s.data.takeWhile Char.isDigit)

/-- Source: parseTimeToMs in chatParser.js; reads an optional (d+)m part and an
optional (d+)s part of the time string and sums them in milliseconds. -/
def parseTimeToMs (timeStr : String) : Int :=
  let minutes := run1 false [Pat.cap 1 [Pat.plus false isD], l "m"] timeStr
  let seconds := run1 false [Pat.cap 1 [Pat.plus false isD], l "s"] timeStr
  (match minutes with
   | some m => (parseIntLead m : Int) * 60000
   | none => 0) +
  (match seconds with
   | some s => (parseIntLead s : Int) * 1000
   | none => 0)

/-- JS String.prototype.toLowerCase on the ASCII range, character by
character; written over the character list so the kernel can evaluate it. -/
def jsToLower (s : String) : String := String.mk (s.data.map Char.toLower)

/-- JS String.prototype.trim: whitespace removed from both ends. -/
def jsTrim (s : String) : String :=
  String.mk (((s.data.dropWhile Char.isWhitespace).reverse.dropWhile Char.isWhitespace).reverse)

/-! ### Booster tracker (src/services/boosterTracker.js) -/

/-- Source constant BOOSTER_DURATION: 30 minutes in milliseconds. -/
def BOOSTER_DURATION : Int := 1800000

/-- Source list BOOSTER_TYPES. -/
def BOOSTER_TYPES : List String := ["xp", "coin", "bots", "overflow", "fishing", "mining", "farming"]

/-- Source list VALID_MULTIPLIERS: the decimals 2.0, 2.2, 2.4, 2.6, 2.8 and
3.0, written as explicit fractions so the kernel can evaluate them. -/
def VALID_MULTIPLIERS : List ℚ :=
  [mkRat 2 1, mkRat 11 5, mkRat 12 5, mkRat 13 5, mkRat 14 5, mkRat 3 1]

/-- One stored booster record. -/
structure BoosterRec where
  type : String
  player : String
  multiplier : Option ℚ
  startTime : Int
  expiryTime : Int
deriving DecidableEq

/-- The activeBoosters map, keyed by normalized type. -/
abbrev TrackerState := String → Option BoosterRec

/-- The empty map. -/
def emptyTracker : TrackerState := fun _ => none

/-- Map.set on the tracker. -/
def trackerSet (st : TrackerState) (k : String) (v : BoosterRec) : TrackerState :=
  fun k2 => if k2 = k then some v else st k2

/-- Map.delete on the tracker. -/
def trackerDelete (st : TrackerState) (k : String) : TrackerState :=
  fun k2 => if k2 = k then none else st k2

/-- Source: normalizeBoosterType, lowercase then trim. -/
def normalizeBoosterType (type : String) : String := jsTrim (jsToLower type)

/-- Source: addBooster.  Validates the type, coerces an out-of-set multiplier
to 2.0 for non-overflow types, rejects when an unexpired record of the type
exists, otherwise inserts a record expiring 30 minutes from now.  Returns
whether the insertion occurred, with the updated map. -/
def addBooster (type player : String) (multiplier : ℚ) (now : Int) (st : TrackerState) :
    Bool × TrackerState :=
  let normalizedType := normalizeBoosterType type
  if BOOSTER_TYPES.contains normalizedType = false then (false, st)
  else
    let multiplier :=
      if normalizedType ≠ "overflow" ∧ multiplier ∉ VALID_MULTIPLIERS then 2 else multiplier
    let activeAlready :=
      match st normalizedType with
      | some existingBooster => decide (now < existingBooster.expiryTime)
      | none => false
    if activeAlready then (false, st)
    else
      (true, trackerSet st normalizedType
        { type := normalizedType
          player := jsTrim player
          multiplier := if normalizedType = "overflow" then none else some multiplier
          startTime := now
          expiryTime := now + BOOSTER_DURATION })

/-- Source: removeBooster.  Fails when no record of the normalized type is
stored or when the stored player differs from the trimmed argument; otherwise
deletes the record. -/
def removeBooster (type player : String) (st : TrackerState) : Bool × TrackerState :=
  let normalizedType := normalizeBoosterType type
  match st normalizedType with
  | none => (false, st)
  | some booster =>
    if booster.player ≠ jsTrim player then (false, st)
    else (true, trackerDelete st normalizedType)

/-- Source: cleanupExpiredBoosters, deleting every record whose expiry has
been reached. -/
def cleanupExpiredBoosters (now : Int) (st : TrackerState) : TrackerState :=
  fun k =>
    match st k with
    | some b => if now ≥ b.expiryTime then none else some b
    | none => none

/-! ### Pending booster correlation (chatParser.js) -/

/-- Source constant PENDING_BOOSTER_TTL. -/
def PENDING_BOOSTER_TTL : Int := 1000

/-- Source constant BOOSTER_PING_COOLDOWN: 5 minutes in milliseconds. -/
def BOOSTER_PING_COOLDOWN : Int := 300000

/-- Source list PING_BOOSTER_TYPES. -/
def PING_BOOSTER_TYPES : List String := ["bots", "mining", "farming", "fishing", "overflow"]

/-- The chat-parser fields touched by the booster sub-protocol, together with
the tracker it writes through.  pendingBoosterTimeout is the armed deadline of
the one-shot timer, none when no timer is armed. -/
structure BoosterCtx where
  pendingBooster : Option (String × String)
  pendingBoosterTimeout : Option Int
  lastBoosterExpirePing : Int
  tracker : TrackerState

/-- Observable outcome of one promotion: the tracker call result, the notice
fields that depend on the data, and whether a role mention was attached. -/
structure BoosterPromotion where
  player : String
  type : String
  trackerAdded : Bool
  noticeMultiplier : Option ℚ
  pinged : Bool
deriving DecidableEq

/-- JS truthiness fallback x or 2.0 applied to the final multiplier. -/
def jsOrQ (m : Option ℚ) (d : ℚ) : ℚ :=
  match m with
  | none => d
  | some q => if q = 0 then d else q

/-- Source: clearPendingBooster, dropping the pending record and cancelling
the timer. -/
def clearPendingBooster (st : BoosterCtx) : BoosterCtx :=
  { st with pendingBooster := none, pendingBoosterTimeout := none }

/-- Source: completePendingBooster.  A no-op without a pending record;
otherwise registers through addBooster (with the multiplier nulled for
overflow and the JS fallback to 2.0), composes the notice whose multiplier
field appears only for a truthy final multiplier, attaches a role mention for
allow-listed types when the 5-minute cooldown has elapsed (resetting the
cooldown clock), and clears the pending record and its timer. -/
def completePendingBooster (multiplier : ℚ) (now : Int) (st : BoosterCtx) :
    BoosterCtx × Option BoosterPromotion :=
  match st.pendingBooster with
  | none => (st, none)
  | some (player, type) =>
    let normalizedType := jsTrim (jsToLower type)
    let finalMultiplier : Option ℚ := if normalizedType = "overflow" then none else some multiplier
    let addResult := addBooster type player (jsOrQ finalMultiplier 2) now st.tracker
    let shouldPing := PING_BOOSTER_TYPES.contains normalizedType
    let ping := shouldPing && decide (now - st.lastBoosterExpirePing ≥ BOOSTER_PING_COOLDOWN)
    let promo : BoosterPromotion :=
      { player := player
        type := type
        trackerAdded := addResult.1
        noticeMultiplier :=
          match finalMultiplier with
          | some q => if q = 0 then none else some q
          | none => none
        pinged := ping }
    let st2 := { st with
                 tracker := addResult.2
                 lastBoosterExpirePing := if ping then now else st.lastBoosterExpirePing }
    (clearPendingBooster st2, some promo)

/-- Source: the booster branch of handleMessage.  An activation match clears
any previous pending record, stores the trimmed player and type and arms the
one-second timer; an expiry match attempts removal from the tracker (the
expiry notice itself carries no tracked data) and is handled either way. -/
def handleBoosterMessage (message : String) (now : Int) (st : BoosterCtx) :
    BoosterCtx × Bool :=
  match matchBoosterChat message with
  | some (player, type) =>
    let st1 := clearPendingBooster st
    ({ st1 with
       pendingBooster := some (jsTrim player, jsTrim type)
       pendingBoosterTimeout := some (now + PENDING_BOOSTER_TTL) }, true)
  | none =>
    match matchBoosterExpire message with
    | some (player, _multiplier, type) =>
      let removal := removeBooster (jsToLower type) player st.tracker
      ({ st with tracker := removal.2 }, true)
    | none => (st, false)

/-- Source: the body of the setTimeout armed by the activation branch,
promoting with the default multiplier 2.0 when a pending record remains. -/
def firePendingBoosterTimeout (now : Int) (st : BoosterCtx) :
    BoosterCtx × Option BoosterPromotion :=
  match st.pendingBooster with
  | some _ => completePendingBooster 2 now st
  | none => (st, none)

/-- Source: handleTitleMessage, promoting a pending record with the parsed
multiplier when a title carries one. -/
def handleTitleMessage (title : String) (now : Int) (st : BoosterCtx) :
    BoosterCtx × Option BoosterPromotion :=
  match matchBoosterTitle title with
  | none => (st, none)
  | some mstr =>
    if st.pendingBooster.isSome then completePendingBooster (parseFloatLead mstr) now st
    else (st, none)

/-! ### Event de-duplication and the events command response (chatParser.js) -/

/-- The activeEvents map; the handlers consult only the stored timestamp, so
the value type is that timestamp. -/
abbrev ActiveEvents := String → Option Int

/-- The empty activeEvents map. -/
def noEvents : ActiveEvents := fun _ => none

/-- Map.set on activeEvents. -/
def eventsSet (m : ActiveEvents) (k : String) (t : Int) : ActiveEvents :=
  fun k2 => if k2 = k then some t else m k2

/-- The argument record of sendEventNotification. -/
structure EventNotice where
  type : String
  name : String
  status : String
  ping : Bool
  timestamp : Int
deriving DecidableEq

/-- Source: sendEventNotification.  Suppresses the notice when the composite
key is already stored with a timestamp less than five seconds old, otherwise
records the timestamp field of the notice under the key and emits.  The
returned Bool is whether an emission happened; the JS return value is true in
both branches. -/
def sendEventNotification (ev : EventNotice) (now : Int) (st : ActiveEvents) :
    ActiveEvents × Bool :=
  let eventKey := ev.type ++ "-" ++ ev.name ++ "-" ++ ev.status
  match st eventKey with
  | some t =>
    if now - t < 5000 then (st, false)
    else (eventsSet st eventKey ev.timestamp, true)
  | none => (eventsSet st eventKey ev.timestamp, true)

/-- Source: handleEventEndMessage.  On a pit-event-ended match, suppresses a
duplicate younger than five seconds, otherwise stores the observation time
under the EVENT key and emits.  Returns state, emitted, handled. -/
def handleEventEndMessage (message : String) (now : Int) (st : ActiveEvents) :
    ActiveEvents × Bool × Bool :=
  match matchMajorEnded message with
  | none => (st, false, false)
  | some name =>
    let eventKey := "EVENT-" ++ name ++ "-ended"
    match st eventKey with
    | some t =>
      if now - t < 5000 then (st, false, true)
      else (eventsSet st eventKey now, true, true)
    | none => (eventsSet st eventKey now, true, true)

/-- Source: handleEventMessage.  A major announcement with a lead time other
than exactly 3 minutes is ignored (the JS falls through to return false); the
3-minute announcement is dated at the scheduled start and carries a role
mention; the remaining branches are dated at observation time.  Returns
state, emitted, handled. -/
def handleEventMessage (message : String) (now : Int) (st : ActiveEvents) :
    ActiveEvents × Bool × Bool :=
  match matchMajorStarting message with
  | some (name, minutes) =>
    if minutes = "3" then
      let scheduledTime := now + (parseIntLead minutes : Int) * 60 * 1000
      let r := sendEventNotification
        { type := "MAJOR", name := jsTrim name, status := "starting in 3m",
          ping := true, timestamp := scheduledTime } now st
      (r.1, r.2, true)
    else (st, false, false)
  | none =>
    match matchMajorStartingNow message with
    | some name =>
      let r := sendEventNotification
        { type := "MAJOR", name := jsTrim name, status := "starting now",
          ping := false, timestamp := now } now st
      (r.1, r.2, true)
    | none =>
      match matchMajorEnded message with
      | some name =>
        let r := sendEventNotification
          { type := "MAJOR", name := jsTrim name, status := "ended",
            ping := false, timestamp := now } now st
        (r.1, r.2, true)
      | none =>
        if matchHarvestStart message then
          let r := sendEventNotification
            { type := "MINOR", name := "HARVEST SEASON", status := "active",
              ping := false, timestamp := now } now st
          (r.1, r.2, true)
        else if matchHarvestEnd message then
          let r := sendEventNotification
            { type := "MINOR", name := "HARVEST SEASON", status := "ended",
              ping := false, timestamp := now } now st
          (r.1, r.2, true)
        else if matchAuctionStart message then
          let r := sendEventNotification
            { type := "MINOR", name := "AUCTION", status := "starting soon",
              ping := false, timestamp := now } now st
          (r.1, r.2, true)
        else if matchAuctionEnd message then
          let r := sendEventNotification
            { type := "MINOR", name := "AUCTION", status := "ending now",
              ping := false, timestamp := now } now st
          (r.1, r.2, true)
        else (st, false, false)

/-- One slot of the pending events-command response. -/
structure EventsSlot where
  name : String
  time : String
  timestamp : Int
deriving DecidableEq

/-- The pending two-slot record lastEventsCommand, with its creation time. -/
structure PendingEvents where
  timestamp : Int
  major : Option EventsSlot
  minor : Option EventsSlot
deriving DecidableEq

/-- The assembled embed; each field is its title together with the event name
(the appended countdown display string is outside the modelled data). -/
structure EventsEmbed where
  fields : List (String × String)
deriving DecidableEq

/-- Source: handleEventsCommandResponse.  Fills the matching slot of the
pending record (creating it dated now when absent), then emits and clears when
both slots are filled or when more than 500 milliseconds have passed since the
record was created; otherwise keeps the record.  There is no timer: the
elapsed-time check runs only while handling a matching line.  Returns state,
emission, handled. -/
def handleEventsCommandResponse (message : String) (now : Int) (st : Option PendingEvents) :
    Option PendingEvents × Option EventsEmbed × Bool :=
  let majorMatch := matchEventsMajor message
  let minorMatch := matchEventsMinor message
  if majorMatch.isNone ∧ minorMatch.isNone then (st, none, false)
  else
    let rec0 : PendingEvents :=
      match st with
      | none => { timestamp := now, major := none, minor := none }
      | some r => r
    let rec1 :=
      match majorMatch with
      | some (name, time) => { rec0 with major := some ⟨name, time, now + parseTimeToMs time⟩ }
      | none => rec0
    let rec2 :=
      match minorMatch with
      | some (name, time) => { rec1 with minor := some ⟨name, time, now + parseTimeToMs time⟩ }
      | none => rec1
    if (rec2.major.isSome && rec2.minor.isSome) || decide (now - rec2.timestamp > 500) then
      let fields :=
        (match rec2.major with
         | some s => [("Next Major Event", s.name)]
         | none => []) ++
        (match rec2.minor with
         | some s => [("Next Minor Event", s.name)]
         | none => [])
      (none, some ⟨fields⟩, true)
    else (some rec2, none, true)

/-! ### The ordered dispatcher (handleMessage in chatParser.js)

Each classifier below is the pure test deciding the return value of the
corresponding handler: true exactly when the handler reports the line as
handled, which in every case depends only on the line. -/

/-- handleLobbyChatMessage handles the line iff the anchored lobby pattern matches. -/
def handledLobbyChat (m : String) : Bool := matchLobbyChat m

/-- handleGuildChatMessage handles the line iff the guild chat pattern matches. -/
def handledGuildChat (m : String) : Bool := matchGuildChat m

/-- handleGuildKillMessage handles the line iff the guild kill pattern matches. -/
def handledGuildKill (m : String) : Bool := matchGuildKill m

/-- handleVerificationMessage handles the line iff the whisper pattern matches. -/
def handledVerification (m : String) : Bool := (matchVerifyMessage m).isSome

/-- handleEventsCommandResponse handles the line iff either slot pattern matches. -/
def handledEventsCommand (m : String) : Bool :=
  (matchEventsMajor m).isSome || (matchEventsMinor m).isSome

/-- handleEventEndMessage handles the line iff the ended pattern matches,
suppressed duplicates included. -/
def handledEventEnd (m : String) : Bool := (matchMajorEnded m).isSome

/-- handleBoosterMessage handles the line iff the activation or expiry pattern matches. -/
def handledBooster (m : String) : Bool :=
  (matchBoosterChat m).isSome || (matchBoosterExpire m).isSome

/-- handleEventMessage handles the line per its if-else chain; a major
announcement whose lead time is not the string 3 falls through to false. -/
def handledEvent (m : String) : Bool :=
  match matchMajorStarting m with
  | some (_, minutes) => minutes == "3"
  | none =>
    (matchMajorStartingNow m).isSome || (matchMajorEnded m).isSome ||
    matchHarvestStart m || matchHarvestEnd m || matchAuctionStart m || matchAuctionEnd m

/-- handlePrestigeMessage handles the line iff the prestige pattern matches. -/
def handledPrestige (m : String) : Bool := (matchPrestige m).isSome

/-- handleLobbyMessage handles the line iff the moving pattern matches. -/
def handledLobby (m : String) : Bool := (matchLobby m).isSome

/-- The classifier tests of handleMessage, in source order: lobby-scoped chat,
guild chat, guild kill, verification code, events command response, event
ended, booster, generic event, prestige, lobby change. -/
def classifiers : List (String → Bool) :=
  [handledLobbyChat, handledGuildChat, handledGuildKill, handledVerification,
   handledEventsCommand, handledEventEnd, handledBooster, handledEvent,
   handledPrestige, handledLobby]

/-- Ordered first-match dispatch.  Returns the index of the classifier that
handled the line (none when all fall through) and the number of classifiers
that were evaluated, mirroring the early returns of handleMessage. -/
def dispatchAux : List (String → Bool) → String → Option Nat × Nat
  | [], _ => (none, 0)
  | h :: t, m =>
    if h m then (some 0, 1)
    else
      let r := dispatchAux t m
      (r.1.map (· + 1), r.2 + 1)

/-- Source: handleMessage, as the ordered dispatch over the classifier list. -/
def handleMessage (m : String) : Option Nat × Nat := dispatchAux classifiers m

/-! ### Player data store (src/utils/playerDataStore.js) -/

/-- One persisted player record; fields that callers may omit are optional. -/
structure PlayerData where
  name : String
  prestige : String
  level : Int
  guild : Option String
  rank : Option String
  lobby : Option String
  lastSeen : Int
deriving DecidableEq

/-- Source: name.replace removing every crown decoration character. -/
def stripCrown (s : String) : String := String.mk (s.data.filter (fun c => c ≠ '♚'))

/-- The normalized name: decoration stripped, then trimmed. -/
def normalizeName (name : String) : String := jsTrim (stripCrown name)

/-- The name as updatePlayer stores it: the normalized name, with the crown
reapplied after a space when the incoming name contained one. -/
def storedName (name : String) : String :=
  if name.data.contains '♚' then normalizeName name ++ " ♚" else normalizeName name

/-- Index of the first list entry accepted by the test, as JS Array find. -/
def findIdxP (pred : PlayerData → Bool) : List PlayerData → Option Nat
  | [] => none
  | p :: ps => if pred p then some 0 else (findIdxP pred ps).map (· + 1)

/-- Source: updatePlayer.  Finds the record whose normalized name matches,
overwrites its fields with the incoming data (the JS merges fields with
Object.assign; identical full records make this an overwrite) and rewrites
the stored name; appends a fresh record otherwise. -/
def updatePlayer (d : PlayerData) (players : List PlayerData) : List PlayerData :=
  let normalizedName := normalizeName d.name
  match findIdxP (fun p => normalizeName p.name == normalizedName) players with
  | some i => players.set i { d with name := storedName d.name }
  | none => players ++ [{ d with name := storedName d.name }]

/-- Source: hasPlayerChanged.  Looks the record up by the exact, unnormalized
name; a missing record counts as changed; otherwise compares prestige, level,
guild, rank and lobby only, never lastSeen. -/
def hasPlayerChanged (d : PlayerData) (players : List PlayerData) : Bool :=
  match players.find? (fun p => p.name == d.name) with
  | none => true
  | some p =>
    d.prestige != p.prestige || d.level != p.level || d.guild != p.guild ||
    d.rank != p.rank || d.lobby != p.lobby

/-! ### Command bridge verification codes (src/minecraft/commandBridge.js) -/

/-- Source constant config.timings.verificationCodeTTL: 5 minutes. -/
def VERIFICATION_CODE_TTL : Int := 300000

/-- One stored verification code entry. -/
structure VerificationRec where
  discordUserId : String
  expires : Int
deriving DecidableEq

/-- The verificationCodes map as an association list keyed by code. -/
abbrev Codes := List (String × VerificationRec)

/-- Map.get by code. -/
def codesGet (codes : Codes) (code : String) : Option VerificationRec :=
  (codes.find? (fun e => e.1 == code)).map (fun e => e.2)

/-- Map.set by code: replace the entry when the key exists, append otherwise. -/
def codesSet (codes : Codes) (code : String) (v : VerificationRec) : Codes :=
  if (codes.find? (fun e => e.1 == code)).isSome then
    codes.map (fun e => if e.1 == code then (code, v) else e)
  else codes ++ [(code, v)]

/-- Map.delete by code. -/
def codesDelete (codes : Codes) (code : String) : Codes :=
  codes.filter (fun e => e.1 != code)

/-- Source: generateVerificationCode.  Deletes every entry owned by the user,
then stores the freshly generated code with the fixed TTL.  The random code
itself is an argument of the model. -/
def generateVerificationCode (discordUserId code : String) (now : Int) (codes : Codes) : Codes :=
  let codes1 := codes.filter (fun e => e.2.discordUserId != discordUserId)
  codesSet codes1 code { discordUserId := discordUserId, expires := now + VERIFICATION_CODE_TTL }

/-- The Discord-side conditions consulted by handleVerificationCode. -/
structure DiscordEnv where
  memberExists : Bool
  memberHasVerified : Bool
  memberHasCatchpa : Bool
  verifiedRoleExists : Bool
  catchpaRoleExists : Bool
deriving DecidableEq

/-- The externally visible steps handleVerificationCode can take. -/
inductive VerifyAction where
  | whisperInvalid
  | whisperExpired
  | whisperError
  | whisperAlreadyVerified
  | addVerifiedRole
  | removeCatchpaRole
  | whisperSuccess
  | setNick
  | dmSuccess
deriving DecidableEq

/-- Source: handleVerificationCode.  Unknown code: failure whisper, state
unchanged.  Expired code: lazily deleted, failure whisper.  Missing member:
failure whisper, state unchanged.  Member already verified: failure whisper,
no role or nickname step, and the code is NOT deleted.  Otherwise the role
grant, catchpa removal, success whisper, nickname set and DM run and the code
is deleted. -/
def handleVerificationCode (code : String) (now : Int) (env : DiscordEnv) (codes : Codes) :
    Codes × List VerifyAction :=
  match codesGet codes code with
  | none => (codes, [VerifyAction.whisperInvalid])
  | some verification =>
    if now > verification.expires then (codesDelete codes code, [VerifyAction.whisperExpired])
    else if env.memberExists = false then (codes, [VerifyAction.whisperError])
    else if env.verifiedRoleExists && env.memberHasVerified then
      (codes, [VerifyAction.whisperAlreadyVerified])
    else
      let roleActions :=
        if env.verifiedRoleExists then
          [VerifyAction.addVerifiedRole] ++
          (if env.catchpaRoleExists && env.memberHasCatchpa then
            [VerifyAction.removeCatchpaRole] else []) ++
          [VerifyAction.whisperSuccess]
        else []
      (codesDelete codes code, roleActions ++ [VerifyAction.setNick, VerifyAction.dmSuccess])

/-- Source: cleanupVerificationCodes, deleting every expired entry. -/
def cleanupVerificationCodes (now : Int) (codes : Codes) : Codes :=
  codes.filter (fun e => !(decide (now > e.2.expires)))

/-! ## Theorems -/

/-- Lookup after setting the same key. -/
theorem trackerSet_self (st : TrackerState) (k : String) (v : BoosterRec) :
    trackerSet st k v k = some v := by
  simp [trackerSet]

/-- Lookup after deleting the same key. -/
theorem trackerDelete_self (st : TrackerState) (k : String) :
    trackerDelete st k k = none := by
  simp [trackerDelete]

/-- Successful insertion characterized: the type was valid and the store now
maps the normalized type to the fresh record expiring 30 minutes from now. -/
theorem addBooster_spec (type player : String) (m : ℚ) (now : Int) (st : TrackerState)
    (h : (addBooster type player m now st).1 = true) :
    BOOSTER_TYPES.contains (normalizeBoosterType type) = true ∧
    ∃ mv, (addBooster type player m now st).2 =
      trackerSet st (normalizeBoosterType type)
        ⟨normalizeBoosterType type, jsTrim player, mv, now, now + BOOSTER_DURATION⟩ := by
  simp only [addBooster] at h ⊢
  split at h
  · simp at h
  · next hc =>
    split at h
    · simp at h
    · next hact =>
      simp only [Bool.not_eq_false] at hc
      refine ⟨hc, ?_⟩
      rw [if_neg (by rw [hc]; simp), if_neg hact]
      exact ⟨_, rfl⟩

/-- C4: after addBooster succeeds for a type, every further addBooster of that
type fails while the 30-minute expiry has not passed, and succeeds again as
soon as the record is removed (which the activating player can do) or the
expiry is reached. -/
theorem addBooster_exclusive
    (type player : String) (m : ℚ) (now : Int) (st : TrackerState)
    (h : (addBooster type player m now st).1 = true) :
    (∀ p2 m2 now2, now2 < now + BOOSTER_DURATION →
      (addBooster type p2 m2 now2 (addBooster type player m now st).2).1 = false) ∧
    ((removeBooster type player (addBooster type player m now st).2).1 = true ∧
      ∀ p2 m2 now2,
        (addBooster type p2 m2 now2
          (removeBooster type player (addBooster type player m now st).2).2).1 = true) ∧
    (∀ p2 m2 now2, now + BOOSTER_DURATION ≤ now2 →
      (addBooster type p2 m2 now2 (addBooster type player m now st).2).1 = true) := by
  obtain ⟨hc, mv, h2⟩ := addBooster_spec type player m now st h
  have hmem : normalizeBoosterType type ∈ BOOSTER_TYPES := by simpa using hc
  refine ⟨?_, ⟨?_, ?_⟩, ?_⟩
  · intro p2 m2 now2 hlt
    rw [h2]
    unfold addBooster
    simp [hmem, trackerSet_self, hlt]
  · rw [h2]
    unfold removeBooster
    simp [trackerSet_self]
  · intro p2 m2 now2
    rw [h2]
    unfold removeBooster
    simp only [trackerSet_self]
    unfold addBooster
    simp [hmem, trackerDelete_self]
  · intro p2 m2 now2 hge
    rw [h2]
    unfold addBooster
    simp [hmem, trackerSet_self]
    rw [if_neg (by omega)]

/-- Witness for addBooster_exclusive: a mining booster added at time 0 blocks
a second mining activation one minute later. -/
theorem addBooster_exclusive_witness :
    (addBooster "mining" "Steve" (mkRat 12 5) 0 emptyTracker).1 = true ∧
    (60000 : Int) < 0 + BOOSTER_DURATION ∧
    (addBooster "mining" "Bob" (mkRat 11 5) 60000 (addBooster "mining" "Steve" (mkRat 12 5) 0 emptyTracker).2).1
      = false :=
  ⟨by decide, by decide,
    (addBooster_exclusive "mining" "Steve" 2.4 0 emptyTracker (by decide)).1
      "Bob" 2.2 60000 (by decide)⟩

/-- C7 counterexample: a record created at time 0 expires at 1800000, so at
time 999999999 no active (non-expired) mining record exists; the claim then
demands removeBooster return false, but removeBooster never consults the
clock and still deletes the stale record, returning true. -/
theorem removeBooster_expired_counterexample :
    (((addBooster "mining" "Steve" (mkRat 12 5) 0 emptyTracker).2 "mining").map BoosterRec.expiryTime
      = some 1800000) ∧
    (1800000 : Int) ≤ 999999999 ∧
    (removeBooster "mining" "Steve" (addBooster "mining" "Steve" (mkRat 12 5) 0 emptyTracker).2).1
      = true := by
  refine ⟨by decide, by decide, by decide⟩

/-- C7 amended: removeBooster returns false and leaves the store untouched
when no record of the type is stored at all, or when the stored player is not
exactly the trimmed argument; otherwise it deletes the stored record,
expired or not, and returns true. -/
theorem removeBooster_amended (type player : String) (st : TrackerState) :
    (st (normalizeBoosterType type) = none → removeBooster type player st = (false, st)) ∧
    (∀ b, st (normalizeBoosterType type) = some b → b.player ≠ jsTrim player →
      removeBooster type player st = (false, st)) ∧
    (∀ b, st (normalizeBoosterType type) = some b → b.player = jsTrim player →
      removeBooster type player st = (true, trackerDelete st (normalizeBoosterType type))) := by
  refine ⟨?_, ?_, ?_⟩
  · intro h
    simp only [removeBooster]
    rw [h]
  · intro b hb hne
    simp only [removeBooster]
    rw [hb]
    simp [hne]
  · intro b hb heq
    simp only [removeBooster]
    rw [hb]
    simp [heq]

/-- Witness for removeBooster_amended: removal of the record stored for
Steve succeeds with the padded name, which trims back to Steve. -/
theorem removeBooster_amended_witness :
    (addBooster "mining" "Steve" (mkRat 12 5) 0 emptyTracker).2 "mining"
      = some ⟨"mining", "Steve", some (mkRat 12 5), 0, 1800000⟩ ∧
    removeBooster "mining" " Steve " (addBooster "mining" "Steve" (mkRat 12 5) 0 emptyTracker).2
      = (true, trackerDelete (addBooster "mining" "Steve" (mkRat 12 5) 0 emptyTracker).2 "mining") :=
  ⟨by decide,
    (removeBooster_amended "mining" " Steve "
        (addBooster "mining" "Steve" (mkRat 12 5) 0 emptyTracker).2).2.2
      ⟨"mining", "Steve", some (mkRat 12 5), 0, 1800000⟩ (by decide) (by decide)⟩

/-- Lookup after setting the same key in the activeEvents map. -/
theorem eventsSet_self (m : ActiveEvents) (k : String) (t : Int) :
    eventsSet m k t k = some t := by
  simp [eventsSet]

/-- C2 counterexample: two identical 3-minute major announcements observed
10 seconds apart produce one emission, not two, because the de-duplication
entry stores the scheduled start time, three minutes in the future. -/
theorem eventDedup_gap_counterexample :
    (handleEventMessage "MAJOR EVENT! GAMBLE starting in 3 minutes" 0 noEvents).2.1 = true ∧
    (10000 : Int) - 0 > 5000 ∧
    (handleEventMessage "MAJOR EVENT! GAMBLE starting in 3 minutes" 10000
      (handleEventMessage "MAJOR EVENT! GAMBLE starting in 3 minutes" 0 noEvents).1).2.1
      = false := by
  refine ⟨by decide, by decide, by decide⟩

/-- C2 amended: for notices whose recorded timestamp is their observation
time (every status except the major starting-in-3-minutes announcement,
which records the scheduled start), a fresh-key notice emits, an identical
notice within 5 seconds is suppressed, and one 5 or more seconds later emits
again; the same holds for the pit-event-ended handler, which always records
the observation time. -/
theorem eventDedup_amended :
    (∀ (ev ev2 : EventNotice) (st : ActiveEvents) (t2 : Int),
      ev2.type = ev.type → ev2.name = ev.name → ev2.status = ev.status →
      st (ev.type ++ "-" ++ ev.name ++ "-" ++ ev.status) = none →
      (sendEventNotification ev ev.timestamp st).2 = true ∧
      (t2 - ev.timestamp < 5000 →
        (sendEventNotification ev2 t2 (sendEventNotification ev ev.timestamp st).1).2 = false) ∧
      (5000 ≤ t2 - ev.timestamp →
        (sendEventNotification ev2 t2 (sendEventNotification ev ev.timestamp st).1).2 = true)) ∧
    (∀ (msg name : String) (st : ActiveEvents) (t1 t2 : Int),
      matchMajorEnded msg = some name →
      st ("EVENT-" ++ name ++ "-ended") = none →
      (handleEventEndMessage msg t1 st).2.1 = true ∧
      (t2 - t1 < 5000 →
        (handleEventEndMessage msg t2 (handleEventEndMessage msg t1 st).1).2.1 = false) ∧
      (5000 ≤ t2 - t1 →
        (handleEventEndMessage msg t2 (handleEventEndMessage msg t1 st).1).2.1 = true)) := by
  constructor
  · intro ev ev2 st t2 hty hna hst hnone
    have h1 : sendEventNotification ev ev.timestamp st =
        (eventsSet st (ev.type ++ "-" ++ ev.name ++ "-" ++ ev.status) ev.timestamp, true) := by
      simp only [sendEventNotification, hnone]
    refine ⟨by rw [h1], ?_, ?_⟩
    · intro hlt
      rw [h1]
      simp only [sendEventNotification, hty, hna, hst, eventsSet_self]
      simp [hlt]
    · intro hge
      rw [h1]
      simp only [sendEventNotification, hty, hna, hst, eventsSet_self]
      rw [if_neg (by omega)]
  · intro msg name st t1 t2 hm hnone
    have h1 : handleEventEndMessage msg t1 st =
        (eventsSet st ("EVENT-" ++ name ++ "-ended") t1, true, true) := by
      simp only [handleEventEndMessage, hm, hnone]
    refine ⟨by rw [h1], ?_, ?_⟩
    · intro hlt
      rw [h1]
      simp only [handleEventEndMessage, hm, eventsSet_self]
      simp [hlt]
    · intro hge
      rw [h1]
      simp only [handleEventEndMessage, hm, eventsSet_self]
      rw [if_neg (by omega)]

/-- Witness for eventDedup_amended: a pit-event-ended notice at time 0,
repeated at time 6000, emits both times. -/
theorem eventDedup_amended_witness :
    (handleEventEndMessage "PIT EVENT ENDED: RAGE PIT!" 0 noEvents).2.1 = true ∧
    (handleEventEndMessage "PIT EVENT ENDED: RAGE PIT!" 6000
      (handleEventEndMessage "PIT EVENT ENDED: RAGE PIT!" 0 noEvents).1).2.1 = true :=
  ⟨(eventDedup_amended.2 "PIT EVENT ENDED: RAGE PIT!" "RAGE PIT" noEvents 0 6000
      (by decide) rfl).1,
    (eventDedup_amended.2 "PIT EVENT ENDED: RAGE PIT!" "RAGE PIT" noEvents 0 6000
      (by decide) rfl).2.2 (by decide)⟩

/-- C3 counterexample: reply lines for the major and the minor slot arriving
1000 milliseconds apart produce no emission at the first line and then one
single combined embed with two fields at the second line, not the two
separate single-field embeds the claim predicts, and nothing is emitted when
the 500 millisecond window elapses without a further line. -/
theorem eventsResponse_split_counterexample :
    (handleEventsCommandResponse "EVENTS! Next Major Event: GAMBLE in 38m0s" 0 none).2.1
      = none ∧
    (1000 : Int) - 0 > 500 ∧
    (handleEventsCommandResponse "EVENTS! Next Minor Event: AUCTION in 5s" 1000
      (handleEventsCommandResponse "EVENTS! Next Major Event: GAMBLE in 38m0s" 0 none).1).2.1
      = some ⟨[("Next Major Event", "GAMBLE"), ("Next Minor Event", "AUCTION")]⟩ := by
  refine ⟨by decide, by decide, by decide⟩

/-- C3 amended: the combined notice is emitted only while a matching reply
line is being handled, there being no timer: a line that fills the second
slot emits the two-field embed at once, however late it arrives; a line
arriving more than 500 milliseconds after the record was created emits
whatever is filled even with one slot empty; a first line within the window
is stored without emission; the record is cleared exactly when an emission
happens. -/
theorem eventsResponse_amended :
    (∀ (msg : String) (now : Int) (r : PendingEvents) (a : EventsSlot) (n t : String),
      r.major = some a → matchEventsMajor msg = none → matchEventsMinor msg = some (n, t) →
      handleEventsCommandResponse msg now (some r) =
        (none, some ⟨[("Next Major Event", a.name), ("Next Minor Event", n)]⟩, true)) ∧
    (∀ (msg : String) (now : Int) (r : PendingEvents) (n t : String),
      r.minor = none → matchEventsMajor msg = some (n, t) → matchEventsMinor msg = none →
      now - r.timestamp > 500 →
      handleEventsCommandResponse msg now (some r) =
        (none, some ⟨[("Next Major Event", n)]⟩, true)) ∧
    (∀ (msg : String) (now : Int) (n t : String),
      matchEventsMajor msg = some (n, t) → matchEventsMinor msg = none →
      handleEventsCommandResponse msg now none =
        (some ⟨now, some ⟨n, t, now + parseTimeToMs t⟩, none⟩, none, true)) := by
  refine ⟨?_, ?_, ?_⟩
  · intro msg now r a n t hmaj hM hm
    unfold handleEventsCommandResponse
    rw [hM, hm]
    simp [hmaj]
  · intro msg now r n t hmin hM hm helapsed
    unfold handleEventsCommandResponse
    rw [hM, hm]
    simp [hmin, helapsed]
  · intro msg now n t hM hm
    unfold handleEventsCommandResponse
    rw [hM, hm]
    simp

/-- Witness for eventsResponse_amended: a minor reply filling the second slot
of a pending record emits the combined two-field embed immediately. -/
theorem eventsResponse_amended_witness :
    handleEventsCommandResponse "EVENTS! Next Minor Event: AUCTION in 5s" 1000
      (some ⟨0, some ⟨"GAMBLE", "38m0s", 2280000⟩, none⟩) =
      (none, some ⟨[("Next Major Event", "GAMBLE"), ("Next Minor Event", "AUCTION")]⟩, true) :=
  eventsResponse_amended.1 "EVENTS! Next Minor Event: AUCTION in 5s" 1000
    ⟨0, some ⟨"GAMBLE", "38m0s", 2280000⟩, none⟩ ⟨"GAMBLE", "38m0s", 2280000⟩
    "AUCTION" "5s" rfl (by decide) (by decide)

/-- C1: an activation line stores the single pending player-and-type pair
(trimmed) and arms the one-second timer; a later title carrying a multiplier
resolves the pending record through a promotion with the parsed multiplier,
while the timer firing first resolves it through a promotion with the
default multiplier 2.0; both resolution paths leave neither a pending record
nor an armed timer behind. -/
theorem boosterCorrelation_resolution
    (message player type : String) (now : Int) (st : BoosterCtx)
    (hm : matchBoosterChat message = some (player, type)) :
    ((handleBoosterMessage message now st).1.pendingBooster
        = some (jsTrim player, jsTrim type) ∧
     (handleBoosterMessage message now st).1.pendingBoosterTimeout
        = some (now + PENDING_BOOSTER_TTL) ∧
     PENDING_BOOSTER_TTL = 1000) ∧
    (∀ (title mstr : String) (now2 : Int), matchBoosterTitle title = some mstr →
      handleTitleMessage title now2 (handleBoosterMessage message now st).1
        = completePendingBooster (parseFloatLead mstr) now2 (handleBoosterMessage message now st).1 ∧
      (handleTitleMessage title now2 (handleBoosterMessage message now st).1).1.pendingBooster
        = none ∧
      (handleTitleMessage title now2 (handleBoosterMessage message now st).1).1.pendingBoosterTimeout
        = none) ∧
    (∀ now2 : Int,
      firePendingBoosterTimeout now2 (handleBoosterMessage message now st).1
        = completePendingBooster 2 now2 (handleBoosterMessage message now st).1 ∧
      (firePendingBoosterTimeout now2 (handleBoosterMessage message now st).1).1.pendingBooster
        = none ∧
      (firePendingBoosterTimeout now2 (handleBoosterMessage message now st).1).1.pendingBoosterTimeout
        = none) := by
  have hstate : (handleBoosterMessage message now st).1 =
      { pendingBooster := some (jsTrim player, jsTrim type)
        pendingBoosterTimeout := some (now + PENDING_BOOSTER_TTL)
        lastBoosterExpirePing := st.lastBoosterExpirePing
        tracker := st.tracker } := by
    simp only [handleBoosterMessage, hm, clearPendingBooster]
  refine ⟨⟨by rw [hstate], by rw [hstate], rfl⟩, ?_, ?_⟩
  · intro title mstr now2 hmt
    rw [hstate]
    refine ⟨?_, ?_, ?_⟩
    · simp only [handleTitleMessage, hmt, Option.isSome_some, if_true]
    · simp [handleTitleMessage, hmt, completePendingBooster, clearPendingBooster]
    · simp [handleTitleMessage, hmt, completePendingBooster, clearPendingBooster]
  · intro now2
    rw [hstate]
    refine ⟨?_, ?_, ?_⟩
    · simp only [firePendingBoosterTimeout]
    · simp [firePendingBoosterTimeout, completePendingBooster, clearPendingBooster]
    · simp [firePendingBoosterTimeout, completePendingBooster, clearPendingBooster]

/-- Witness for boosterCorrelation_resolution: the sample activation line
followed by a 2.4x title promotes and clears the pending state. -/
theorem boosterCorrelation_resolution_witness :
    matchBoosterChat "WOAH! [5] Steve just activated a mining booster! GG!"
      = some ("Steve", "mining") ∧
    (handleBoosterMessage "WOAH! [5] Steve just activated a mining booster! GG!" 0
      ⟨none, none, -1000000, emptyTracker⟩).1.pendingBooster = some ("Steve", "mining") ∧
    (handleTitleMessage "2.4x" 400
      (handleBoosterMessage "WOAH! [5] Steve just activated a mining booster! GG!" 0
        ⟨none, none, -1000000, emptyTracker⟩).1).1.pendingBooster = none :=
  ⟨by decide,
    by
      have h := (boosterCorrelation_resolution
        "WOAH! [5] Steve just activated a mining booster! GG!" "Steve" "mining" 0
        ⟨none, none, -1000000, emptyTracker⟩ (by decide)).1.1
      simpa using h,
    ((boosterCorrelation_resolution
        "WOAH! [5] Steve just activated a mining booster! GG!" "Steve" "mining" 0
        ⟨none, none, -1000000, emptyTracker⟩ (by decide)).2.1 "2.4x" "2.4x" 400
        (by decide)).2.1⟩

/-- Failure of addBooster leaves the store untouched. -/
theorem addBooster_fail_state (type player : String) (m : ℚ) (now : Int) (st : TrackerState)
    (h : (addBooster type player m now st).1 = false) :
    (addBooster type player m now st).2 = st := by
  simp only [addBooster] at h ⊢
  split at h
  · next hc => rw [if_pos hc]
  · next hc =>
    rw [if_neg hc]
    split at h
    · next hact => rw [if_pos hact]
    · simp at h

/-- Success of addBooster characterized: the normalized type is known and no
unexpired record of it is stored. -/
theorem addBooster_succ_iff (type player : String) (m : ℚ) (now : Int) (st : TrackerState) :
    (addBooster type player m now st).1 = true ↔
    (BOOSTER_TYPES.contains (normalizeBoosterType type) = true ∧
     ∀ b, st (normalizeBoosterType type) = some b → b.expiryTime ≤ now) := by
  simp only [addBooster]
  by_cases hc : BOOSTER_TYPES.contains (normalizeBoosterType type) = false
  · have hnmem : normalizeBoosterType type ∉ BOOSTER_TYPES := by simpa using hc
    rw [if_pos hc]
    simp [hnmem]
  · rw [if_neg hc]
    simp only [Bool.not_eq_false] at hc
    have hmem : normalizeBoosterType type ∈ BOOSTER_TYPES := by simpa using hc
    cases hl : st (normalizeBoosterType type) with
    | none => simp [hl, hmem]
    | some b =>
      by_cases hlt : now < b.expiryTime
      · simp only [hl]
        rw [if_pos (by simp [hlt])]
        simp only [hl]
        constructor
        · intro hcontra; cases hcontra
        · intro hall
          have := hall.2 b rfl
          omega
      · simp only [hl]
        rw [if_neg (by simp [hlt])]
        simp only [hl]
        constructor
        · intro _
          refine ⟨hc, ?_⟩
          intro b2 hb2
          injection hb2 with hb2
          subst hb2
          omega
        · intro _
          trivial

/-- C6 counterexample: with an unexpired mining record already stored, a
mining promotion still emits the activation notice but the tracker rejects
the registration and keeps the old record, so the promotion does not
register the booster as the claim asserts. -/
theorem promotion_register_counterexample :
    ((completePendingBooster (mkRat 12 5) 60000
        ⟨some ("Steve", "mining"), some 61000, -1000000,
          (addBooster "mining" "Alice" (mkRat 11 5) 0 emptyTracker).2⟩).2.map
        BoosterPromotion.trackerAdded = some false) ∧
    ((completePendingBooster (mkRat 12 5) 60000
        ⟨some ("Steve", "mining"), some 61000, -1000000,
          (addBooster "mining" "Alice" (mkRat 11 5) 0 emptyTracker).2⟩).2.isSome = true) ∧
    (((completePendingBooster (mkRat 12 5) 60000
        ⟨some ("Steve", "mining"), some 61000, -1000000,
          (addBooster "mining" "Alice" (mkRat 11 5) 0 emptyTracker).2⟩).1.tracker
        "mining").map BoosterRec.player = some "Alice") := by
  refine ⟨by decide, by decide, by decide⟩

/-- C6 amended: a promotion with a pending record always emits exactly one
activation notice and always invokes tracker registration, which succeeds
precisely when the normalized type is known and no unexpired record of it is
stored, and otherwise leaves the tracker unchanged; on success the tracker
holds the trimmed player with a 30-minute expiry; the notice carries a role
mention exactly when the type is allow-listed and at least 5 minutes have
passed since the last mention, in which case the cooldown clock resets to
now; and the pending record and timer are cleared. -/
theorem promotion_amended (multiplier : ℚ) (now : Int) (st : BoosterCtx) (player type : String)
    (hp : st.pendingBooster = some (player, type)) :
    ∃ promo, (completePendingBooster multiplier now st).2 = some promo ∧
      promo.pinged = (PING_BOOSTER_TYPES.contains (normalizeBoosterType type) &&
        decide (now - st.lastBoosterExpirePing ≥ BOOSTER_PING_COOLDOWN)) ∧
      (promo.pinged = true →
        (completePendingBooster multiplier now st).1.lastBoosterExpirePing = now) ∧
      (promo.pinged = false →
        (completePendingBooster multiplier now st).1.lastBoosterExpirePing
          = st.lastBoosterExpirePing) ∧
      (promo.trackerAdded = true ↔
        (BOOSTER_TYPES.contains (normalizeBoosterType type) = true ∧
         ∀ b, st.tracker (normalizeBoosterType type) = some b → b.expiryTime ≤ now)) ∧
      (promo.trackerAdded = false →
        (completePendingBooster multiplier now st).1.tracker = st.tracker) ∧
      (promo.trackerAdded = true →
        ∃ b, (completePendingBooster multiplier now st).1.tracker (normalizeBoosterType type)
            = some b ∧ b.player = jsTrim player ∧ b.expiryTime = now + BOOSTER_DURATION) ∧
      ((completePendingBooster multiplier now st).1.pendingBooster = none ∧
       (completePendingBooster multiplier now st).1.pendingBoosterTimeout = none) := by
  have hmain : completePendingBooster multiplier now st =
      (let finalMultiplier : Option ℚ :=
        if jsTrim (jsToLower type) = "overflow" then none else some multiplier
      let addResult := addBooster type player (jsOrQ finalMultiplier 2) now st.tracker
      let ping := PING_BOOSTER_TYPES.contains (jsTrim (jsToLower type)) &&
        decide (now - st.lastBoosterExpirePing ≥ BOOSTER_PING_COOLDOWN)
      ({ pendingBooster := none, pendingBoosterTimeout := none
         lastBoosterExpirePing := if ping then now else st.lastBoosterExpirePing
         tracker := addResult.2 },
       some { player := player, type := type, trackerAdded := addResult.1,
              noticeMultiplier :=
                match finalMultiplier with
                | some q => if q = 0 then none else some q
                | none => none,
              pinged := ping })) := by
    simp only [completePendingBooster, hp, clearPendingBooster]
  rw [hmain]
  refine ⟨_, rfl, rfl, ?_, ?_, ?_, ?_, ?_, ⟨rfl, rfl⟩⟩
  · intro hping
    simp only at hping ⊢
    rw [hping]
    simp
  · intro hping
    simp only at hping ⊢
    rw [hping]
    simp
  · simp only
    exact addBooster_succ_iff type player _ now st.tracker
  · intro hfail
    simp only at hfail ⊢
    exact addBooster_fail_state type player _ now st.tracker hfail
  · intro hsucc
    simp only at hsucc ⊢
    obtain ⟨_, mv, h2⟩ := addBooster_spec type player _ now st.tracker hsucc
    rw [h2]
    exact ⟨_, trackerSet_self _ _ _, rfl, rfl⟩

/-- Witness for promotion_amended: a fishing promotion on an empty tracker
registers, pings after a long quiet period, resets the cooldown clock and
clears the pending state. -/
theorem promotion_amended_witness :
    ∃ promo, (completePendingBooster (mkRat 12 5) 1000000
        ⟨some ("Steve", "fishing"), some 1000, 0, emptyTracker⟩).2 = some promo ∧
      promo.pinged = (PING_BOOSTER_TYPES.contains (normalizeBoosterType "fishing") &&
        decide ((1000000 : Int) - 0 ≥ BOOSTER_PING_COOLDOWN)) ∧
      (promo.pinged = true →
        (completePendingBooster (mkRat 12 5) 1000000
          ⟨some ("Steve", "fishing"), some 1000, 0, emptyTracker⟩).1.lastBoosterExpirePing
          = 1000000) ∧
      (promo.pinged = false →
        (completePendingBooster (mkRat 12 5) 1000000
          ⟨some ("Steve", "fishing"), some 1000, 0, emptyTracker⟩).1.lastBoosterExpirePing = 0) ∧
      (promo.trackerAdded = true ↔
        (BOOSTER_TYPES.contains (normalizeBoosterType "fishing") = true ∧
         ∀ b, emptyTracker (normalizeBoosterType "fishing") = some b →
           b.expiryTime ≤ 1000000)) ∧
      (promo.trackerAdded = false →
        (completePendingBooster (mkRat 12 5) 1000000
          ⟨some ("Steve", "fishing"), some 1000, 0, emptyTracker⟩).1.tracker = emptyTracker) ∧
      (promo.trackerAdded = true →
        ∃ b, (completePendingBooster (mkRat 12 5) 1000000
            ⟨some ("Steve", "fishing"), some 1000, 0, emptyTracker⟩).1.tracker
            (normalizeBoosterType "fishing")
            = some b ∧ b.player = jsTrim "Steve" ∧ b.expiryTime = 1000000 + BOOSTER_DURATION) ∧
      ((completePendingBooster (mkRat 12 5) 1000000
          ⟨some ("Steve", "fishing"), some 1000, 0, emptyTracker⟩).1.pendingBooster = none ∧
       (completePendingBooster (mkRat 12 5) 1000000
          ⟨some ("Steve", "fishing"), some 1000, 0, emptyTracker⟩).1.pendingBoosterTimeout
          = none) :=
  promotion_amended (mkRat 12 5) 1000000
    ⟨some ("Steve", "fishing"), some 1000, 0, emptyTracker⟩ "Steve" "fishing" rfl

/-- Ordered dispatch blueprint: when classifier i is the first to accept the
line, the dispatch reports index i and has evaluated exactly the first i + 1
classifiers, so no later classifier runs. -/
theorem dispatchAux_first (lcs : List (String → Bool)) (m : String) :
    ∀ i, i < lcs.length → (lcs.getD i (fun _ => false)) m = true →
      (∀ j, j < i → (lcs.getD j (fun _ => false)) m = false) →
      dispatchAux lcs m = (some i, i + 1) := by
  induction lcs with
  | nil =>
    intro i hi
    simp at hi
  | cons h t ih =>
    intro i hi hmatch hprior
    cases i with
    | zero =>
      have hh : h m = true := hmatch
      simp [dispatchAux, hh]
    | succ i2 =>
      have h0 : h m = false := hprior 0 (Nat.succ_pos _)
      have ht : dispatchAux t m = (some i2, i2 + 1) := by
        refine ih i2 (by simpa using hi) hmatch ?_
        intro j hj
        exact hprior (j + 1) (Nat.succ_lt_succ hj)
      simp [dispatchAux, h0, ht]

/-- C5: handleMessage evaluates the classifiers in the fixed source order
(the classifiers list), the first classifier accepting the line handles it,
and no later classifier is evaluated: exactly i + 1 tests run when the
handler at index i fires. -/
theorem dispatch_first_match (m : String) (i : Nat)
    (hi : i < classifiers.length)
    (hmatch : (classifiers.getD i (fun _ => false)) m = true)
    (hprior : ∀ j, j < i → (classifiers.getD j (fun _ => false)) m = false) :
    handleMessage m = (some i, i + 1) :=
  dispatchAux_first classifiers m i hi hmatch hprior

/-- Witness for dispatch_first_match: a pit-event-ended line also matches the
later generic-event classifier, but the event-ended classifier at index 5
wins and only six classifiers are evaluated. -/
theorem dispatch_first_match_witness :
    (classifiers.getD 5 (fun _ => false)) "PIT EVENT ENDED: RAGE PIT!" = true ∧
    (classifiers.getD 7 (fun _ => false)) "PIT EVENT ENDED: RAGE PIT!" = true ∧
    handleMessage "PIT EVENT ENDED: RAGE PIT!" = (some 5, 6) :=
  ⟨by decide, by decide,
    dispatch_first_match "PIT EVENT ENDED: RAGE PIT!" 5 (by decide) (by decide)
      (by decide)⟩

/-- After updatePlayer stores data whose name already has its stored shape,
the exact-name lookup of hasPlayerChanged finds precisely the stored record. -/
theorem updatePlayer_find (d : PlayerData) (hsn : storedName d.name = d.name) :
    ∀ ps : List PlayerData,
      (updatePlayer d ps).find? (fun p => p.name == d.name)
        = some { d with name := storedName d.name } := by
  intro ps
  induction ps with
  | nil =>
    simp [updatePlayer, findIdxP, List.find?, hsn]
  | cons p ps ih =>
    by_cases hp : (normalizeName p.name == normalizeName d.name) = true
    · simp only [updatePlayer, findIdxP, hp, if_true]
      simp [List.set, List.find?, hsn]
    · have hp2 : (normalizeName p.name == normalizeName d.name) = false := by
        simpa using hp
      have hname : (p.name == d.name) = false := by
        cases hq : p.name == d.name
        · rfl
        · exfalso
          have heq : p.name = d.name := eq_of_beq hq
          rw [heq] at hp2
          simp at hp2
      simp only [updatePlayer, findIdxP, hp2, Bool.false_eq_true, if_false] at ih ⊢
      cases hidx : findIdxP (fun p2 => normalizeName p2.name == normalizeName d.name) ps with
      | none =>
        rw [hidx] at ih
        simp only [Option.map_none']
        rw [List.cons_append]
        rw [List.find?_cons_of_neg _ (by simp [hname])]
        simpa using ih
      | some i =>
        rw [hidx] at ih
        simp only [Option.map_some']
        simp only [List.set]
        rw [List.find?_cons_of_neg _ (by simp [hname])]
        simpa using ih

/-- C8 counterexample: the decorated name with the crown in front, repeated
through two identical updatePlayer calls, still reports changed, because
updatePlayer stores the name as Steve-space-crown while hasPlayerChanged
looks it up by the exact incoming name. -/
theorem hasPlayerChanged_decorated_counterexample :
    hasPlayerChanged ⟨"♚Steve", "I", 10, none, none, none, 0⟩
      (updatePlayer ⟨"♚Steve", "I", 10, none, none, none, 0⟩
        (updatePlayer ⟨"♚Steve", "I", 10, none, none, none, 0⟩ [])) = true := by
  decide

/-- C8 amended: for player data whose name is already in stored shape (the
undecorated trimmed name, or that name followed by space and crown), one
updatePlayer call leaves hasPlayerChanged false on identical data, hence so
does any repetition; and hasPlayerChanged never depends on lastSeen. -/
theorem playerChange_amended :
    (∀ (d : PlayerData) (ps : List PlayerData), storedName d.name = d.name →
      hasPlayerChanged d (updatePlayer d ps) = false) ∧
    (∀ (d : PlayerData) (ps : List PlayerData) (x : Int),
      hasPlayerChanged { d with lastSeen := x } ps = hasPlayerChanged d ps) := by
  constructor
  · intro d ps hsn
    unfold hasPlayerChanged
    rw [updatePlayer_find d hsn ps]
    simp
  · intro d ps x
    rfl

/-- Witness for playerChange_amended: the canonical decorated name keeps the
detector false after an update, and a lastSeen change alone never flips it. -/
theorem playerChange_amended_witness :
    storedName "Steve ♚" = "Steve ♚" ∧
    hasPlayerChanged ⟨"Steve ♚", "I", 10, none, none, none, 0⟩
      (updatePlayer ⟨"Steve ♚", "I", 10, none, none, none, 0⟩ []) = false ∧
    hasPlayerChanged ⟨"Steve ♚", "I", 10, none, none, none, 99⟩ []
      = hasPlayerChanged ⟨"Steve ♚", "I", 10, none, none, none, 0⟩ [] :=
  ⟨by decide,
    playerChange_amended.1 ⟨"Steve ♚", "I", 10, none, none, none, 0⟩ [] (by decide),
    playerChange_amended.2 ⟨"Steve ♚", "I", 10, none, none, none, 0⟩ [] 99⟩

/-- find? on a cons whose head passes the test. -/
theorem find?_cons_pos {α : Type} (p : α → Bool) (a : α) (l2 : List α) (h : p a = true) :
    (a :: l2).find? p = some a :=
  List.find?_cons_of_pos l2 h

/-- Filtering keeps the first match of find? when the kept element survives. -/
theorem find?_filter {α : Type} (p q : α → Bool) (l2 : List α) (a : α)
    (h : l2.find? p = some a) (hq : q a = true) :
    (l2.filter q).find? p = some a := by
  induction l2 with
  | nil => simp at h
  | cons x xs ih =>
    by_cases hx : p x = true
    · rw [find?_cons_pos p x xs hx] at h
      injection h with h
      subst h
      rw [List.filter_cons_of_pos hq]
      rw [find?_cons_pos p x _ hx]
    · have hx2 : p x = false := by simpa using hx
      rw [List.find?_cons_of_neg _ (by simp [hx2])] at h
      by_cases hqx : q x = true
      · rw [List.filter_cons_of_pos hqx]
        rw [List.find?_cons_of_neg _ (by simp [hx2])]
        exact ih h
      · rw [List.filter_cons_of_neg (by simpa using hqx)]
        exact ih h

/-- In a map with distinct keys, two entries sharing a key are one entry. -/
theorem key_unique {l2 : Codes} (h : (l2.map Prod.fst).Nodup)
    {e1 e2 : String × VerificationRec} (h1 : e1 ∈ l2) (h2 : e2 ∈ l2) (hk : e1.1 = e2.1) :
    e1 = e2 := by
  induction l2 with
  | nil => cases h1
  | cons x xs ih =>
    rw [List.map_cons, List.nodup_cons] at h
    rcases List.mem_cons.mp h1 with h1x | h1xs
    · rcases List.mem_cons.mp h2 with h2x | h2xs
      · rw [h1x, h2x]
      · exfalso
        apply h.1
        have hx1 : x.1 = e2.1 := by rw [← h1x]; exact hk
        rw [hx1]
        exact List.mem_map_of_mem Prod.fst h2xs
    · rcases List.mem_cons.mp h2 with h2x | h2xs
      · exfalso
        apply h.1
        have hx1 : x.1 = e1.1 := by rw [← h2x]; exact hk.symm
        rw [hx1]
        exact List.mem_map_of_mem Prod.fst h1xs
      · exact ih h.2 h1xs h2xs

/-- Membership after Map.set: the new entry or an old one. -/
theorem mem_codesSet {l2 : Codes} {k : String} {v : VerificationRec}
    {e : String × VerificationRec} (h : e ∈ codesSet l2 k v) :
    e = (k, v) ∨ e ∈ l2 := by
  unfold codesSet at h
  split at h
  · obtain ⟨x, hx, hfx⟩ := List.mem_map.mp h
    by_cases hk : (x.1 == k) = true
    · rw [if_pos hk] at hfx
      exact Or.inl hfx.symm
    · rw [if_neg hk] at hfx
      exact Or.inr (hfx ▸ hx)
  · rcases List.mem_append.mp h with hl | hr
    · exact Or.inr hl
    · rcases hr with _ | _
      · exact Or.inl rfl
      · next hcontra => cases hcontra

/-- Map.set stores the entry retrievably under its key. -/
theorem codesGet_codesSet_self (l2 : Codes) (k : String) (v : VerificationRec) :
    codesGet (codesSet l2 k v) k = some v := by
  induction l2 with
  | nil =>
    simp [codesSet, codesGet, List.find?]
  | cons x xs ih =>
    by_cases hx : (x.1 == k) = true
    · have hfind : ((x :: xs).find? (fun e => e.1 == k)).isSome = true := by
        rw [find?_cons_pos (fun e => e.1 == k) x xs hx]
        rfl
      simp only [codesSet, hfind, if_true]
      simp only [List.map_cons]
      rw [show (if x.1 == k then (k, v) else x) = (k, v) from by rw [if_pos hx]]
      unfold codesGet
      rw [find?_cons_pos (fun e => e.1 == k) (k, v) _ (by simp)]
      rfl
    · have hx2 : (x.1 == k) = false := by simpa using hx
      have hstep : (x :: xs).find? (fun e => e.1 == k) = xs.find? (fun e => e.1 == k) :=
        List.find?_cons_of_neg _ (by simp [hx2])
      simp only [codesSet, hstep] at ih ⊢
      cases hfs : (xs.find? (fun e => e.1 == k)).isSome with
      | true =>
        simp only [hfs, if_true] at ih ⊢
        simp only [List.map_cons]
        rw [show (if x.1 == k then (k, v) else x) = x from by rw [if_neg (by simp [hx2])]]
        unfold codesGet at ih ⊢
        rw [List.find?_cons_of_neg _ (by simp [hx2])]
        exact ih
      | false =>
        simp only [hfs, Bool.false_eq_true, if_false] at ih ⊢
        rw [List.cons_append]
        unfold codesGet at ih ⊢
        rw [List.find?_cons_of_neg _ (by simp [hx2])]
        exact ih

/-- C9: issuing a fresh code for a user first deletes every code the user
owned, so the old code is gone, redeeming it hits the invalid-code path and
leaves everything unchanged, the new code is live with the 5-minute TTL, and
the user owns no live code other than the new one. -/
theorem verificationCode_unique
    (codes : Codes) (user oldCode newCode : String) (now t2 : Int) (env : DiscordEnv)
    (v : VerificationRec)
    (hnd : (codes.map Prod.fst).Nodup)
    (hold : codesGet codes oldCode = some v)
    (huser : v.discordUserId = user)
    (hne : oldCode ≠ newCode) :
    codesGet (generateVerificationCode user newCode now codes) oldCode = none ∧
    handleVerificationCode oldCode t2 env (generateVerificationCode user newCode now codes)
      = (generateVerificationCode user newCode now codes, [VerifyAction.whisperInvalid]) ∧
    codesGet (generateVerificationCode user newCode now codes) newCode
      = some ⟨user, now + VERIFICATION_CODE_TTL⟩ ∧
    (∀ e ∈ generateVerificationCode user newCode now codes, e.2.discordUserId = user →
      e = (newCode, ⟨user, now + VERIFICATION_CODE_TTL⟩)) := by
  obtain ⟨e0, hf0, he0⟩ : ∃ e0, codes.find? (fun e => e.1 == oldCode) = some e0 ∧ e0.2 = v := by
    unfold codesGet at hold
    cases hfind : codes.find? (fun e => e.1 == oldCode) with
    | none => rw [hfind] at hold; simp at hold
    | some e1 =>
      rw [hfind] at hold
      simp only [Option.map_some', Option.some_inj] at hold
      exact ⟨e1, rfl, hold⟩
  have he0k : e0.1 = oldCode := by
    have hb := List.find?_some hf0
    simpa using hb
  have he0mem : e0 ∈ codes := List.mem_of_find?_eq_some hf0
  have he0eq : e0 = (oldCode, v) := by
    cases e0 with
    | mk a b =>
      simp only at he0k he0
      rw [he0k, he0]
  have hnokey : ∀ e ∈ generateVerificationCode user newCode now codes,
      (e.1 == oldCode) = false := by
    intro e hemem
    unfold generateVerificationCode at hemem
    rcases mem_codesSet hemem with he | he
    · rw [he]
      simp only
      exact beq_eq_false_iff_ne.mpr (Ne.symm hne)
    · have hmemc : e ∈ codes := (List.mem_filter.mp he).1
      have hpred : (e.2.discordUserId != user) = true := (List.mem_filter.mp he).2
      by_cases hkk : (e.1 == oldCode) = true
      · exfalso
        have hk2 : e.1 = oldCode := by simpa using hkk
        have : e = (oldCode, v) := by
          apply key_unique hnd hmemc (he0eq ▸ he0mem)
          rw [hk2]
        rw [this] at hpred
        simp [huser] at hpred
      · simpa using hkk
  have h1 : codesGet (generateVerificationCode user newCode now codes) oldCode = none := by
    unfold codesGet
    rw [List.find?_eq_none.mpr (fun e he => by simp [hnokey e he])]
    rfl
  refine ⟨h1, ?_, ?_, ?_⟩
  · unfold handleVerificationCode
    rw [h1]
  · unfold generateVerificationCode
    exact codesGet_codesSet_self _ newCode ⟨user, now + VERIFICATION_CODE_TTL⟩
  · intro e he huser2
    unfold generateVerificationCode at he
    rcases mem_codesSet he with hee | hee
    · exact hee
    · exfalso
      have hpred : (e.2.discordUserId != user) = true := (List.mem_filter.mp hee).2
      rw [huser2] at hpred
      simp at hpred

/-- Witness for verificationCode_unique: reissuing for user U1 invalidates
the first six-digit code; redeeming it reports an invalid code. -/
theorem verificationCode_unique_witness :
    codesGet (generateVerificationCode "U1" "222222" 0 [("111111", ⟨"U1", 300000⟩)])
      "111111" = none ∧
    handleVerificationCode "111111" 1000 ⟨true, true, false, true, true⟩
      (generateVerificationCode "U1" "222222" 0 [("111111", ⟨"U1", 300000⟩)])
      = (generateVerificationCode "U1" "222222" 0 [("111111", ⟨"U1", 300000⟩)],
         [VerifyAction.whisperInvalid]) :=
  ⟨(verificationCode_unique [("111111", ⟨"U1", 300000⟩)] "U1" "111111" "222222" 0 1000
      ⟨true, true, false, true, true⟩ ⟨"U1", 300000⟩
      (by decide) (by decide) rfl (by decide)).1,
   (verificationCode_unique [("111111", ⟨"U1", 300000⟩)] "U1" "111111" "222222" 0 1000
      ⟨true, true, false, true, true⟩ ⟨"U1", 300000⟩
      (by decide) (by decide) rfl (by decide)).2.1⟩

/-- C10: a valid, unexpired code submitted while the Discord member already
holds the verified role yields only the already-verified failure whisper,
with no role or nickname step, and the code stays stored; the cleanup sweep
keeps it as long as it is unexpired, so it stays live until expiry or a
reissue. -/
theorem alreadyVerified_keeps_code
    (code : String) (now : Int) (env : DiscordEnv) (codes : Codes) (v : VerificationRec)
    (hv : codesGet codes code = some v)
    (hexp : ¬now > v.expires)
    (hmem : env.memberExists = true)
    (hrole : env.verifiedRoleExists = true)
    (hver : env.memberHasVerified = true) :
    handleVerificationCode code now env codes = (codes, [VerifyAction.whisperAlreadyVerified]) ∧
    (∀ now2 : Int, ¬now2 > v.expires →
      codesGet (cleanupVerificationCodes now2 codes) code = some v) := by
  constructor
  · simp only [handleVerificationCode, hv]
    rw [if_neg hexp]
    simp [hmem, hrole, hver]
  · intro now2 h2
    obtain ⟨e0, hf0, he0⟩ : ∃ e0, codes.find? (fun e => e.1 == code) = some e0 ∧ e0.2 = v := by
      unfold codesGet at hv
      cases hfind : codes.find? (fun e => e.1 == code) with
      | none => rw [hfind] at hv; simp at hv
      | some e1 =>
        rw [hfind] at hv
        simp only [Option.map_some', Option.some_inj] at hv
        exact ⟨e1, rfl, hv⟩
    unfold cleanupVerificationCodes codesGet
    rw [find?_filter _ _ _ _ hf0 (by simp [he0]; omega)]
    simp [he0]

/-- Witness for alreadyVerified_keeps_code at a concrete store. -/
theorem alreadyVerified_keeps_code_witness :
    handleVerificationCode "111111" 1000 ⟨true, true, false, true, true⟩
      [("111111", ⟨"U1", 300000⟩)]
      = ([("111111", ⟨"U1", 300000⟩)], [VerifyAction.whisperAlreadyVerified]) ∧
    codesGet (cleanupVerificationCodes 2000 [("111111", ⟨"U1", 300000⟩)]) "111111"
      = some ⟨"U1", 300000⟩ :=
  ⟨(alreadyVerified_keeps_code "111111" 1000 ⟨true, true, false, true, true⟩
      [("111111", ⟨"U1", 300000⟩)] ⟨"U1", 300000⟩
      (by decide) (by decide) rfl rfl rfl).1,
   (alreadyVerified_keeps_code "111111" 1000 ⟨true, true, false, true, true⟩
      [("111111", ⟨"U1", 300000⟩)] ⟨"U1", 300000⟩
      (by decide) (by decide) rfl rfl rfl).2 2000 (by decide)⟩

end Wadmol



